import Mathlib

/-!
Shallow embedding of the soma TUI player-control core (main.go): the
persisted session record, the startup reconciliation against the live
player, the bubbletea update loop, the config store round trip, the
mpv connection retry loop, and the process exit paths.  Go methods are
translated into pure Lean functions; external effects (mpv commands,
the signal channel, the config file) are made explicit as command
traces, an environment record, and an abstract file state.
-/

namespace Soma

/-- Channel record from the SomaFM directory (struct channel, main.go
lines 28-37).  The Go IsPlaying field is a pointer shared with the
list items; here the config-side value is an Option Bool (nil pointer
is none) and the cell contents of a list item is a separate Bool mark. -/
structure channel where
  channelTitle : String
  highestURL : String
  fastURL : List String
  slowURL : String
  id : String
  channelDescription : String
  genre : String
  isPlaying : Option Bool
deriving DecidableEq, Repr

/-- Wrapper for the channel list (struct channels, main.go lines 50-52). -/
structure channels where
  channels : List channel
deriving DecidableEq, Repr

/-- Persisted session record (struct somaConfig, main.go lines 362-367).
The time.Time timestamp is modelled as an integer instant. -/
structure somaConfig where
  currentlyPlaying : String
  isPaused : Bool
  channels : channels
  lastChannelsListUpdate : Int
deriving DecidableEq, Repr

/-- One item of the bubbles list widget: a channel plus the contents of
the Bool cell its IsPlaying pointer refers to (main.go lines 132-139
allocate the cell as false). -/
structure ListItem where
  chan : channel
  isPlaying : Bool
deriving DecidableEq, Repr

/-- The state of the bubbles list widget that the core logic touches:
its items, the selected index, and the last status message (styling
escape codes are dropped from the message text). -/
structure ListModel where
  items : List ListItem
  index : Nat
  statusMessage : String
deriving DecidableEq, Repr

/-- The TUI model (struct model, main.go lines 107-113).  The mpvConfig
pointer is replaced by the explicit Env record passed to Update. -/
structure model where
  playing : String
  quitting : Bool
  config : somaConfig
  list : ListModel
deriving DecidableEq, Repr

/-- Key messages the Update switch distinguishes (main.go lines 241-270):
ctrl+c and q, enter, and the cursor keys handled by the inner list
widget; every other key is KeyOther. -/
inductive Key where
  | keyQuit
  | enter
  | up
  | down
  | other
deriving DecidableEq, Repr

/-- Messages consumed by Update (main.go lines 115-121 and 220-275). -/
inductive Msg where
  | windowSize
  | currentTitleUpdate (title : String)
  | changePausedStatus (paused : Bool)
  | key (k : Key)
deriving DecidableEq, Repr

/-- Results of the synchronous mpv queries and the ownership test that
Update consults: mpv.Pause() (line 260), GetProperty media-title
(line 237), and whether this process launched mpv, in which case the
signals channel is non-nil (lines 246-250). -/
structure Env where
  launched : Bool
  mpvPaused : Bool
  mediaTitle : String
deriving DecidableEq, Repr

/-- Commands issued to the player (or to the teardown signal channel)
by the reconciler and the update loop. -/
inductive MpvCmd where
  | setPause (b : Bool)
  | loadfile (url : String)
  | killSignal
deriving DecidableEq, Repr

/-- channelsToItems (main.go lines 132-139): copy each channel into a
list item whose IsPlaying cell is freshly allocated as false. -/
def channelsToItems (cs : List channel) : List ListItem :=
  cs.map (fun c => { chan := c, isPlaying := false })

/-- setIsPlaying (main.go lines 141-149): the items whose channel id
matches get the given mark, every other item is set to false. -/
def setIsPlaying (l : ListModel) (id : String) (mark : Bool) : ListModel :=
  { l with items := l.items.map (fun it =>
      if it.chan.id = id then { it with isPlaying := mark }
      else { it with isPlaying := false }) }

/-- The selected list item, none when the index is out of range (the Go
SelectedItem returns nil there and the call sites panic; all theorems
below keep the list non-empty and the index in bounds). -/
def selectedItem (l : ListModel) : Option ListItem :=
  l.items[l.index]?

/-- The state effect of the inner list widget update on the fields we
model: the cursor keys move the selected index, clamped to the item
range (bubbles CursorUp and CursorDown stop at the ends); every other
message leaves the modelled fields unchanged. -/
def listUpdate (l : ListModel) (msg : Msg) : ListModel :=
  match msg with
  | Msg.key Key.up => { l with index := l.index - 1 }
  | Msg.key Key.down =>
      { l with index := if l.index + 1 < l.items.length then l.index + 1 else l.index }
  | _ => l

/-- First element satisfying the predicate together with its index,
mirroring the for-range loops with break in initialModel. -/
def findWithIdx (p : α → Bool) : List α → Option (Nat × α)
  | [] => none
  | x :: xs =>
    if p x then some (0, x)
    else (findWithIdx p xs).map (fun r => (r.1 + 1, r.2))

/-- The status message text written by NewStatusMessage at main.go
lines 226 and 238, without the lipgloss styling. -/
def nowPlayingStatus (a b : String) : String :=
  "♫ Now playing: « " ++ a ++ " | " ++ b ++ " »"

/-- Startup reconciliation of the freshly built model against the path
reported by the live player (the second half of initialModel, main.go
lines 174-205).  Returns the seeded model together with the trace of
player commands issued.  When the live path matches a channel, the code
records that channel id as playing, applies the persisted pause flag to
the player, selects the row and passes the persisted IsPaused flag to
setIsPlaying as the playing mark; afterwards, if no id was recorded, it
pauses the player.  When there is no live path it restores the persisted
selection and, only when not marked paused, loads that channel. -/
def reconcile (m : model) (livePath : String) : model × List MpvCmd :=
  if livePath ≠ "" then
    let step1 : model × List MpvCmd :=
      match findWithIdx (fun c => c.highestURL == livePath) m.config.channels.channels with
      | some (i, c) =>
        ({ m with playing := c.id,
                  list := setIsPlaying { m.list with index := i } c.id m.config.isPaused },
         [MpvCmd.setPause m.config.isPaused])
      | none => (m, [])
    if step1.1.playing = "" then (step1.1, step1.2 ++ [MpvCmd.setPause true]) else step1
  else
    if m.config.currentlyPlaying ≠ "" then
      match findWithIdx (fun c => c.id == m.config.currentlyPlaying) m.config.channels.channels with
      | some (i, c) =>
        if !m.config.isPaused then
          ({ m with playing := c.id,
                    list := setIsPlaying { m.list with index := i } c.id true },
           [MpvCmd.loadfile c.highestURL])
        else
          ({ m with list := { m.list with index := i } }, [])
      | none => (m, [])
    else (m, [])

/-- The model seeded by initialModel from an already loaded session
record and the live player path: the zero model of main.go lines
152-156, the list built at line 171, then reconciliation. -/
def seedModel (cfg : somaConfig) (livePath : String) : model × List MpvCmd :=
  reconcile
    { playing := "", quitting := false, config := cfg,
      list := { items := channelsToItems cfg.channels.channels, index := 0, statusMessage := "" } }
    livePath

/-- The Update method (main.go lines 220-275), as a pure step from a
model and a message to the next model and the player commands issued.
The quit branch returns before the inner list update; every other
branch falls through to it.  The two call sites of SelectedItem return
the model unchanged when the index is out of range, where the Go code
would panic on a nil item; the theorems below keep that branch
unreachable. -/
def Update (env : Env) (m : model) (msg : Msg) : model × List MpvCmd :=
  match msg with
  | Msg.windowSize => ({ m with list := listUpdate m.list msg }, [])
  | Msg.currentTitleUpdate t =>
    match selectedItem m.list with
    | none => (m, [])
    | some it =>
      let l := { m.list with statusMessage := nowPlayingStatus it.chan.channelTitle t }
      ({ m with list := listUpdate l msg }, [])
  | Msg.changePausedStatus true =>
    let l0 := setIsPlaying m.list m.playing false
    let l := { l0 with statusMessage := "" }
    ({ m with playing := "",
              config := { m.config with isPaused := true },
              list := listUpdate l msg }, [])
  | Msg.changePausedStatus false =>
    let p := m.config.currentlyPlaying
    let l0 := setIsPlaying m.list p true
    let l := { l0 with statusMessage := nowPlayingStatus p env.mediaTitle }
    ({ m with playing := p,
              config := { m.config with isPaused := false },
              list := listUpdate l msg }, [])
  | Msg.key Key.keyQuit =>
    ({ m with quitting := true },
     if env.launched then [MpvCmd.killSignal] else [MpvCmd.setPause true])
  | Msg.key Key.enter =>
    match selectedItem m.list with
    | none => (m, [])
    | some it =>
      if m.playing ≠ it.chan.id then
        ({ m with playing := it.chan.id,
                  config := { m.config with currentlyPlaying := it.chan.id, isPaused := false },
                  list := listUpdate (setIsPlaying m.list it.chan.id true) msg },
         MpvCmd.loadfile it.chan.highestURL ::
           (if env.mpvPaused then [MpvCmd.setPause false] else []))
      else
        let l0 := setIsPlaying m.list m.playing false
        let l := { l0 with statusMessage := "" }
        ({ m with playing := "",
                  config := { m.config with isPaused := true },
                  list := listUpdate l msg },
         [MpvCmd.setPause true])
  | Msg.key Key.up => ({ m with list := listUpdate m.list msg }, [])
  | Msg.key Key.down => ({ m with list := listUpdate m.list msg }, [])
  | Msg.key Key.other => ({ m with list := listUpdate m.list msg }, [])

/-- One step of the control loop: apply Update and keep the model. -/
def step (m : model) (em : Env × Msg) : model :=
  (Update em.1 m em.2).1

/-- Run the control loop over a sequence of environment and message
pairs, in arrival order. -/
def run (m : model) (l : List (Env × Msg)) : model :=
  l.foldl step m

/-- The abstract control-loop states named by the spec.  Selecting is
merged into idle: cursor motion does not change the playback fields. -/
inductive MachineState where
  | idleSt
  | playingSt (id : String)
  | pausedSt (id : String)
  | quittingSt
deriving DecidableEq, Repr

/-- The abstract state derived from a model: the spec state machine is
a view of the session record (selected id and pause flag) plus the
quitting flag; the now-playing indicator itself is kept out of the
derivation so that the invariant relating them is not circular. -/
def stateOf (m : model) : MachineState :=
  if m.quitting then MachineState.quittingSt
  else if m.config.currentlyPlaying = "" then MachineState.idleSt
  else if m.config.isPaused then MachineState.pausedSt m.config.currentlyPlaying
  else MachineState.playingSt m.config.currentlyPlaying

/-- JSON values, the target of encoding/json marshalling.  The
time.Time timestamp serialises through RFC3339 text, which round-trips
the instant; its JSON form is modelled as a number carrying that
instant. -/
inductive JValue where
  | null
  | jbool (b : Bool)
  | jnum (n : Int)
  | jstr (s : String)
  | jarr (xs : List JValue)
  | jobj (fields : List (String × JValue))

/-- Marshalling of the IsPlaying pointer field: a nil pointer becomes
null, otherwise the pointed-to Bool. -/
def marshalOptBool : Option Bool → JValue
  | none => JValue.null
  | some b => JValue.jbool b

/-- Marshalling of a string slice. -/
def marshalStrList (xs : List String) : JValue :=
  JValue.jarr (xs.map JValue.jstr)

/-- json.Marshal of one channel, with the keys of the struct tags at
main.go lines 28-37; the untagged exported pointer field keeps its Go
name IsPlaying. -/
def marshalChannel (c : channel) : JValue :=
  JValue.jobj
    [("title", JValue.jstr c.channelTitle),
     ("highestpls", JValue.jstr c.highestURL),
     ("fastpls", marshalStrList c.fastURL),
     ("slowpls", JValue.jstr c.slowURL),
     ("id", JValue.jstr c.id),
     ("description", JValue.jstr c.channelDescription),
     ("genre", JValue.jstr c.genre),
     ("IsPlaying", marshalOptBool c.isPlaying)]

/-- json.Marshal of the somaConfig record, with the struct tag keys of
main.go lines 362-367 (the channels wrapper marshals as an object with
one channels key). -/
def marshalConfig (c : somaConfig) : JValue :=
  JValue.jobj
    [("currentlyPlaying", JValue.jstr c.currentlyPlaying),
     ("isPaused", JValue.jbool c.isPaused),
     ("channels", JValue.jobj [("channels", JValue.jarr (c.channels.channels.map marshalChannel))]),
     ("lastChannelsListUpdate", JValue.jnum c.lastChannelsListUpdate)]

/-- Field lookup in a JSON object, first binding wins. -/
def lookupField (fs : List (String × JValue)) (k : String) : Option JValue :=
  (fs.find? (fun p => p.1 == k)).map Prod.snd

/-- encoding/json decode into a string field: a missing key or a null
leaves the zero value, a string is taken, any other value is a type
error. -/
def unmarshalString : Option JValue → Option String
  | none => some ""
  | some JValue.null => some ""
  | some (JValue.jstr s) => some s
  | some _ => none

/-- encoding/json decode into a bool field. -/
def unmarshalBool : Option JValue → Option Bool
  | none => some false
  | some JValue.null => some false
  | some (JValue.jbool b) => some b
  | some _ => none

/-- encoding/json decode into an Int field (the timestamp instant). -/
def unmarshalInt : Option JValue → Option Int
  | none => some 0
  | some JValue.null => some 0
  | some (JValue.jnum n) => some n
  | some _ => none

/-- encoding/json decode into a *bool field: missing or null is a nil
pointer, a bool allocates it. -/
def unmarshalOptBool : Option JValue → Option (Option Bool)
  | none => some none
  | some JValue.null => some none
  | some (JValue.jbool b) => some (some b)
  | some _ => none

/-- encoding/json decode of one JSON value into a string slice
element. -/
def unmarshalStrElem : JValue → Option String
  | JValue.jstr s => some s
  | JValue.null => some ""
  | _ => none

/-- Decode a list of JSON values elementwise into strings. -/
def unmarshalStrElems : List JValue → Option (List String)
  | [] => some []
  | j :: js =>
    match unmarshalStrElem j, unmarshalStrElems js with
    | some s, some ss => some (s :: ss)
    | _, _ => none

/-- encoding/json decode into a []string field. -/
def unmarshalStrList : Option JValue → Option (List String)
  | none => some []
  | some JValue.null => some []
  | some (JValue.jarr xs) => unmarshalStrElems xs
  | some _ => none

/-- The zero channel value Go starts decoding into. -/
def zeroChannel : channel :=
  { channelTitle := "", highestURL := "", fastURL := [], slowURL := "",
    id := "", channelDescription := "", genre := "", isPlaying := none }

/-- encoding/json decode of one JSON value into a channel struct:
null leaves the zero value, an object fills the tagged fields, any
other value is a type error. -/
def unmarshalChannel : JValue → Option channel
  | JValue.null => some zeroChannel
  | JValue.jobj fs =>
    match unmarshalString (lookupField fs "title"),
          unmarshalString (lookupField fs "highestpls"),
          unmarshalStrList (lookupField fs "fastpls"),
          unmarshalString (lookupField fs "slowpls"),
          unmarshalString (lookupField fs "id"),
          unmarshalString (lookupField fs "description"),
          unmarshalString (lookupField fs "genre"),
          unmarshalOptBool (lookupField fs "IsPlaying") with
    | some t, some hi, some fa, some sl, some i, some d, some g, some p =>
      some { channelTitle := t, highestURL := hi, fastURL := fa, slowURL := sl,
             id := i, channelDescription := d, genre := g, isPlaying := p }
    | _, _, _, _, _, _, _, _ => none
  | _ => none

/-- Decode a list of JSON values elementwise into channels. -/
def unmarshalChannelList : List JValue → Option (List channel)
  | [] => some []
  | j :: js =>
    match unmarshalChannel j, unmarshalChannelList js with
    | some c, some cs => some (c :: cs)
    | _, _ => none

/-- encoding/json decode into the channels wrapper struct. -/
def unmarshalChannels : Option JValue → Option channels
  | none => some { channels := [] }
  | some JValue.null => some { channels := [] }
  | some (JValue.jobj fs) =>
    (match lookupField fs "channels" with
     | none => some { channels := [] }
     | some JValue.null => some { channels := [] }
     | some (JValue.jarr xs) => (unmarshalChannelList xs).map (fun cs => { channels := cs })
     | some _ => none)
  | some _ => none

/-- encoding/json decode of a JSON value into a somaConfig record. -/
def unmarshalConfig : JValue → Option somaConfig
  | JValue.jobj fs =>
    match unmarshalString (lookupField fs "currentlyPlaying"),
          unmarshalBool (lookupField fs "isPaused"),
          unmarshalChannels (lookupField fs "channels"),
          unmarshalInt (lookupField fs "lastChannelsListUpdate") with
    | some cp, some ip, some cs, some ts =>
      some { currentlyPlaying := cp, isPaused := ip, channels := cs,
             lastChannelsListUpdate := ts }
    | _, _, _, _ => none
  | JValue.null => some { currentlyPlaying := "", isPaused := false,
                          channels := { channels := [] }, lastChannelsListUpdate := 0 }
  | _ => none

/-- The states the persisted config file can be in as seen by
loadConfig (main.go lines 399-422): no user config directory, the file
absent or unreadable, present but not well-formed JSON text, or
well-formed JSON text with the given parsed value. -/
inductive FileState where
  | noConfigDir
  | missing
  | unparseable
  | parsed (j : JValue)

/-- The zero somaConfig value returned on every loadConfig error. -/
def zeroConfig : somaConfig :=
  { currentlyPlaying := "", isPaused := false, channels := { channels := [] },
    lastChannelsListUpdate := 0 }

/-- loadConfig (main.go lines 399-422): every failure path returns the
zero record together with the error flag; only a well-formed file that
decodes into the record returns it without error. -/
def loadConfig (fs : FileState) : somaConfig × Bool :=
  match fs with
  | FileState.noConfigDir => (zeroConfig, true)
  | FileState.missing => (zeroConfig, true)
  | FileState.unparseable => (zeroConfig, true)
  | FileState.parsed j =>
    match unmarshalConfig j with
    | none => (zeroConfig, true)
    | some c => (c, false)

/-- saveConfig (main.go lines 369-397) with the write succeeding: the
file afterwards holds the marshalled record. -/
def saveConfig (c : somaConfig) : FileState :=
  FileState.parsed (marshalConfig c)

/-- Channel-list refresh TTL: 24 hours times 7 in seconds (main.go
line 161). -/
def channelsTTL : Int := 24 * 3600 * 7

/-- Outcome of running the whole of initialModel (main.go lines
151-208): fatal exit when the directory fetch is needed and fails,
otherwise the seeded model and the commands the reconciler issued. -/
inductive InitResult where
  | fatalFetch
  | ok (m : model) (cmds : List MpvCmd)
deriving DecidableEq, Repr

/-- initialModel in full (main.go lines 151-208): load the config
ignoring its error, refresh the channel list when empty or stale
(fetch failure exits the process), then reconcile against the live
player path.  The fetch result is passed in as an oracle. -/
def initialModel (fs : FileState) (now : Int) (fetched : Option channels)
    (livePath : String) : InitResult :=
  let cfg := (loadConfig fs).1
  if cfg.channels.channels.length = 0 || now - cfg.lastChannelsListUpdate > channelsTTL then
    match fetched with
    | none => InitResult.fatalFetch
    | some cs =>
      let r := seedModel { cfg with channels := cs, lastChannelsListUpdate := now } livePath
      InitResult.ok r.1 r.2
  else
    let r := seedModel cfg livePath
    InitResult.ok r.1 r.2

/-- The argument list mpv is spawned with (runMpv, main.go line 295):
idle mode plus the control socket. -/
def runMpvArgs (socketPath : String) : List String :=
  ["--idle", "--input-ipc-server=" ++ socketPath]

/-- Outcome of startMpvClient: the index of the connection attempt
that succeeded (0 is the initial attempt before any spawn, the loop
attempts are 1 to 15), none on failure; whether mpv was spawned; and
how many one-second sleeps were performed. -/
structure ConnectOutcome where
  connectedAt : Option Nat
  spawned : Bool
  sleeps : Nat
deriving DecidableEq, Repr

/-- The retry loop of startMpvClient (main.go lines 323-329): up to
remaining further attempts; each failed attempt sleeps one second
before the next iteration.  The reachable oracle says whether the
numbered NewIPCClient call finds a listener. -/
def connectRetryAux (reachable : Nat → Bool) (attempt remaining sleeps : Nat) :
    Option Nat × Nat :=
  match remaining with
  | 0 => (none, sleeps)
  | r + 1 =>
    if reachable attempt then (some attempt, sleeps)
    else connectRetryAux reachable (attempt + 1) r (sleeps + 1)

/-- startMpvClient (main.go lines 318-340): try once; on failure with
auto-launch enabled, spawn mpv and retry up to 15 times at one-second
spacing, else fail immediately. -/
def startMpvClient (startMpv : Bool) (reachable : Nat → Bool) : ConnectOutcome :=
  if reachable 0 then { connectedAt := some 0, spawned := false, sleeps := 0 }
  else if startMpv then
    let r := connectRetryAux reachable 1 15 0
    { connectedAt := r.1, spawned := true, sleeps := r.2 }
  else { connectedAt := none, spawned := false, sleeps := 0 }

/-- How a run of main can end, for the exit-code accounting: failing
to connect to mpv (main.go line 441), failing the directory fetch
(line 166), or the user quitting from the control loop, recording
whether this process had launched mpv. -/
inductive MainOutcome where
  | connectFailure
  | fetchFailure
  | cleanQuit (launched : Bool)
deriving DecidableEq, Repr

/-- The process exit code on each outcome: os.Exit 1 on connect
failure (line 441) and fetch failure (line 166); on quit, when this
process launched mpv the quit handler signals the teardown goroutine
of runMpv, which kills mpv and calls os.Exit 1 (lines 246-247 and
304-313), otherwise the player is paused, the loop ends and main
returns, exiting 0 (lines 249-252 and 455-459). -/
def exitCode : MainOutcome → Nat
  | MainOutcome.connectFailure => 1
  | MainOutcome.fetchFailure => 1
  | MainOutcome.cleanQuit launched => if launched then 1 else 0

/-- Control-loop invariant tying the now-playing indicator to the
session record: the list is non-empty with the index in range and
channel ids non-empty, and while not quitting the indicator is
non-empty exactly when the session is unpaused with a selection. -/
def Inv (m : model) : Prop :=
  m.list.items ≠ [] ∧
  m.list.index < m.list.items.length ∧
  (∀ it ∈ m.list.items, it.chan.id ≠ "") ∧
  (m.quitting = false →
    (m.playing ≠ "" ↔ (m.config.isPaused = false ∧ m.config.currentlyPlaying ≠ "")))

/-- The session and playback portion of the model: everything except
the displayed status message. -/
def viewState (m : model) : somaConfig × String × Bool × List ListItem × Nat :=
  (m.config, m.playing, m.quitting, m.list.items, m.list.index)

/-- A sequence of consecutive enter activations of even length: one
entry per pair of key presses, each with its own environment. -/
def enterPairs : List (Env × Env) → List (Env × Msg)
  | [] => []
  | p :: ps =>
    (p.1, Msg.key Key.enter) :: (p.2, Msg.key Key.enter) :: enterPairs ps

/-- Sample channel used to evaluate the definitions at concrete
inputs. -/
def chanY : channel :=
  { channelTitle := "Groove Salad", highestURL := "http://x/groovesalad.pls",
    fastURL := [], slowURL := "", id := "groovesalad",
    channelDescription := "ambient", genre := "ambient", isPlaying := none }

/-- Sample persisted session selecting chanY. -/
def cfgY : somaConfig :=
  { currentlyPlaying := "groovesalad", isPaused := false,
    channels := { channels := [chanY] }, lastChannelsListUpdate := 0 }

/-- Sample environment: player not launched by us, not paused. -/
def env0 : Env :=
  { launched := false, mpvPaused := false, mediaTitle := "t" }

/-- When nothing in the list satisfies the predicate, the indexed
search finds nothing. -/
theorem findWithIdx_eq_none {α : Type} {p : α → Bool} {l : List α}
    (h : ∀ x ∈ l, p x = false) : findWithIdx p l = none := by
  induction l with
  | nil => rfl
  | cons x xs ih =>
    have hx := h x (List.mem_cons_self x xs)
    simp [findWithIdx, hx, ih (fun y hy => h y (List.mem_cons_of_mem x hy))]

/-- A successful indexed search returns a position inside the list, an
element of the list, and an element satisfying the predicate. -/
theorem findWithIdx_some {α : Type} {p : α → Bool} {l : List α} {i : Nat} {c : α}
    (h : findWithIdx p l = some (i, c)) : i < l.length ∧ c ∈ l ∧ p c = true := by
  induction l generalizing i with
  | nil => simp [findWithIdx] at h
  | cons x xs ih =>
    by_cases hx : p x
    · simp [findWithIdx, hx] at h
      obtain ⟨h1, h2⟩ := h
      subst h1; subst h2
      exact ⟨Nat.succ_pos _, List.mem_cons_self x xs, hx⟩
    · simp [findWithIdx, hx] at h
      obtain ⟨a, hr, hi⟩ := h
      subst hi
      obtain ⟨ha, hb, hp⟩ := ih hr
      exact ⟨Nat.succ_lt_succ ha, List.mem_cons_of_mem x hb, hp⟩

/-- When some element of the list satisfies the predicate, the indexed
search succeeds. -/
theorem findWithIdx_isSome {α : Type} {p : α → Bool} {l : List α}
    (h : ∃ x ∈ l, p x = true) : ∃ i c, findWithIdx p l = some (i, c) := by
  induction l with
  | nil => simp at h
  | cons x xs ih =>
    by_cases hx : p x
    · exact ⟨0, x, by simp [findWithIdx, hx]⟩
    · obtain ⟨y, hy, hpy⟩ := h
      rcases List.mem_cons.mp hy with rfl | hy2
      · exact absurd hpy hx
      · obtain ⟨i, c, hic⟩ := ih ⟨y, hy2, hpy⟩
        exact ⟨i + 1, c, by simp [findWithIdx, hx, hic]⟩

/-- C1: the spec states that when the live player reports a path
matching channel Y and the persisted session has isPaused true, the
reconciler applies pause, issues no load, and yields Paused(Y) with an
empty now-playing indicator and Y not marked as playing.  Evaluating
the reconciler at exactly that input shows the code does pause the
player and issues no load, but records Y as the now-playing id and
marks Y as playing, since initialModel passes the persisted IsPaused
flag to setIsPlaying as the playing mark (main.go lines 181-184). -/
theorem C1_code_behavior_at_failing_input :
    (seedModel { cfgY with isPaused := true } "http://x/groovesalad.pls").2
        = [MpvCmd.setPause true] ∧
    (seedModel { cfgY with isPaused := true } "http://x/groovesalad.pls").1.playing
        = "groovesalad" ∧
    (seedModel { cfgY with isPaused := true } "http://x/groovesalad.pls").1.list.items.map
        (fun it => (it.chan.id, it.isPlaying)) = [("groovesalad", true)] := by
  refine ⟨rfl, rfl, rfl⟩

/-- C10: at startup reconciliation, a non-empty live path matching no
known channel stream URL leaves the selection empty (now-playing id
empty, no channel marked as playing) and issues a pause command to the
player. -/
theorem C10_unmatched_live_path (cfg : somaConfig) (lp : String)
    (h1 : lp ≠ "")
    (h2 : ∀ c ∈ cfg.channels.channels, c.highestURL ≠ lp) :
    (seedModel cfg lp).1.playing = "" ∧
    (∀ it ∈ (seedModel cfg lp).1.list.items, it.isPlaying = false) ∧
    (seedModel cfg lp).2 = [MpvCmd.setPause true] := by
  have hnone : findWithIdx (fun c => c.highestURL == lp) cfg.channels.channels = none :=
    findWithIdx_eq_none (fun c hc => by
      simp only [beq_eq_false_iff_ne, ne_eq]
      exact h2 c hc)
  simp only [seedModel, reconcile, hnone, channelsToItems]
  simp [h1]

/-- C3: at startup reconciliation with no live path and a persisted
selection X found among the channels, when the session is not paused
the reconciler issues exactly load of the X stream URL and the result
is Playing(X) with the now-playing id X and X selected; when the
session is paused the selection is restored but no playback command is
issued. -/
theorem C3_resume_persisted_selection (cfg : somaConfig) (i : Nat) (X : channel)
    (hcp : cfg.currentlyPlaying ≠ "")
    (hfind : findWithIdx (fun c => c.id == cfg.currentlyPlaying) cfg.channels.channels
      = some (i, X)) :
    (cfg.isPaused = false →
      (seedModel cfg "").2 = [MpvCmd.loadfile X.highestURL] ∧
      (seedModel cfg "").1.playing = X.id ∧
      stateOf (seedModel cfg "").1 = MachineState.playingSt X.id ∧
      (seedModel cfg "").1.list.index = i) ∧
    (cfg.isPaused = true →
      (seedModel cfg "").2 = [] ∧
      (seedModel cfg "").1.playing = "" ∧
      (seedModel cfg "").1.list.index = i) := by
  have hXid : X.id = cfg.currentlyPlaying := by
    have := (findWithIdx_some hfind).2.2
    simpa [beq_iff_eq] using this
  constructor
  · intro hnp
    simp [seedModel, reconcile, hcp, hfind, hnp, setIsPlaying, stateOf, hXid]
  · intro hp
    simp [seedModel, reconcile, hcp, hfind, hp]

/-- C3 witness: the reconciliation theorem evaluated at a session
selecting the sample channel, unpaused and paused. -/
theorem C3_resume_persisted_selection_witness :
    (seedModel cfgY "").2 = [MpvCmd.loadfile "http://x/groovesalad.pls"] ∧
    (seedModel cfgY "").1.playing = "groovesalad" ∧
    (seedModel { cfgY with isPaused := true } "").2 = [] ∧
    (seedModel { cfgY with isPaused := true } "").1.list.index = 0 :=
  ⟨((C3_resume_persisted_selection cfgY 0 chanY (by decide) (by decide)).1 rfl).1,
   ((C3_resume_persisted_selection cfgY 0 chanY (by decide) (by decide)).1 rfl).2.1,
   ((C3_resume_persisted_selection { cfgY with isPaused := true } 0 chanY
      (by decide) (by decide)).2 rfl).1,
   ((C3_resume_persisted_selection { cfgY with isPaused := true } 0 chanY
      (by decide) (by decide)).2 rfl).2.2⟩

/-- C10 witness: the unmatched-live-path theorem evaluated at a live
path that matches no channel of the sample session. -/
theorem C10_unmatched_live_path_witness :
    (seedModel cfgY "http://x/other.pls").1.playing = "" ∧
    (seedModel cfgY "http://x/other.pls").2 = [MpvCmd.setPause true] :=
  ⟨(C10_unmatched_live_path cfgY "http://x/other.pls" (by decide) (by decide)).1,
   (C10_unmatched_live_path cfgY "http://x/other.pls" (by decide) (by decide)).2.2⟩

/-- C5 counterexample: the claim states that a clean user quit exits
with code 0 regardless of whether this process launched the player;
when it did launch it, the quit key routes through the runMpv teardown
handler, which exits with code 1. -/
theorem C5_counterexample : exitCode (MainOutcome.cleanQuit true) ≠ 0 := by
  decide

/-- C5 amended: a clean user quit exits with code 0 exactly when the
player was not launched by this process; when this process launched
the player, the quit key signals the teardown handler, which exits
with code 1; apart from that case, nonzero exit codes occur only on
connection failure or directory-fetch failure.  The quit branch of
Update sets the quitting flag and sends the kill signal exactly when
the player was launched by this process, pausing it otherwise. -/
theorem C5_exit_codes :
    exitCode (MainOutcome.cleanQuit false) = 0 ∧
    exitCode (MainOutcome.cleanQuit true) = 1 ∧
    (∀ o, exitCode o ≠ 0 →
      o = MainOutcome.connectFailure ∨ o = MainOutcome.fetchFailure ∨
        o = MainOutcome.cleanQuit true) ∧
    (∀ env m, (Update env m (Msg.key Key.keyQuit)).1.quitting = true ∧
      (env.launched = true →
        (Update env m (Msg.key Key.keyQuit)).2 = [MpvCmd.killSignal]) ∧
      (env.launched = false →
        (Update env m (Msg.key Key.keyQuit)).2 = [MpvCmd.setPause true])) := by
  refine ⟨rfl, rfl, ?_, ?_⟩
  · intro o ho
    cases o with
    | connectFailure => exact Or.inl rfl
    | fetchFailure => exact Or.inr (Or.inl rfl)
    | cleanQuit launched =>
      cases launched with
      | true => exact Or.inr (Or.inr rfl)
      | false => exact absurd rfl ho
  · intro env m
    refine ⟨rfl, ?_, ?_⟩
    · intro hl; simp [Update, hl]
    · intro hl; simp [Update, hl]

/-- When the first reachable attempt in the window is k, the retry
loop stops there having slept once per failed attempt before k. -/
theorem connectRetryAux_found (reachable : Nat → Bool) :
    ∀ (remaining attempt sleeps k : Nat), attempt ≤ k → k < attempt + remaining →
      reachable k = true → (∀ j, attempt ≤ j → j < k → reachable j = false) →
      connectRetryAux reachable attempt remaining sleeps = (some k, sleeps + (k - attempt)) := by
  intro remaining
  induction remaining with
  | zero => intro attempt sleeps k h1 h2 _ _; omega
  | succ r ih =>
    intro attempt sleeps k h1 h2 h3 h4
    by_cases ha : reachable attempt
    · have hk : k = attempt := by
        by_contra hne
        have : attempt < k := Nat.lt_of_le_of_ne h1 (fun h => hne h.symm)
        have := h4 attempt (Nat.le_refl _) this
        simp [this] at ha
      subst hk
      simp [connectRetryAux, ha]
    · have hne : k ≠ attempt := by
        intro h; subst h; simp [h3] at ha
      have h1b : attempt + 1 ≤ k := Nat.lt_of_le_of_ne h1 (fun h => hne h.symm)
      have := ih (attempt + 1) (sleeps + 1) k h1b (by omega) h3
        (fun j hj1 hj2 => h4 j (by omega) hj2)
      simp only [connectRetryAux, ha, if_false, Bool.false_eq_true]
      rw [this]
      congr 1
      omega

/-- When no attempt in the window is reachable, the retry loop fails
having slept once per attempt. -/
theorem connectRetryAux_none (reachable : Nat → Bool) :
    ∀ (remaining attempt sleeps : Nat),
      (∀ k, attempt ≤ k → k < attempt + remaining → reachable k = false) →
      connectRetryAux reachable attempt remaining sleeps = (none, sleeps + remaining) := by
  intro remaining
  induction remaining with
  | zero => intro attempt sleeps _; simp [connectRetryAux]
  | succ r ih =>
    intro attempt sleeps h
    have ha : reachable attempt = false := h attempt (Nat.le_refl _) (by omega)
    simp only [connectRetryAux, ha, Bool.false_eq_true, if_false]
    rw [ih (attempt + 1) (sleeps + 1) (fun k hk1 hk2 => h k (by omega) (by omega))]
    congr 1
    omega

/-- A successful retry stays inside the attempt window. -/
theorem connectRetryAux_some_bound (reachable : Nat → Bool) :
    ∀ (remaining attempt sleeps k : Nat),
      (connectRetryAux reachable attempt remaining sleeps).1 = some k →
      attempt ≤ k ∧ k < attempt + remaining := by
  intro remaining
  induction remaining with
  | zero => intro attempt sleeps k h; simp [connectRetryAux] at h
  | succ r ih =>
    intro attempt sleeps k h
    by_cases ha : reachable attempt
    · simp [connectRetryAux, ha] at h
      omega
    · simp only [connectRetryAux, ha, Bool.false_eq_true, if_false] at h
      have := ih (attempt + 1) (sleeps + 1) k h
      omega

/-- C4: with auto-launch enabled and no listener at the path, connect
spawns the player in idle mode and retries at one-second spacing, at
most 15 retry attempts; it succeeds at the first reachable attempt
within the bound, and when no attempt within the bound is reachable it
fails after exactly 15 retries; with auto-launch disabled an absent
listener fails immediately with no spawn and no retry. -/
theorem C4_connect_bounded_retry (startMpv : Bool) (reachable : Nat → Bool) :
    (∀ path, "--idle" ∈ runMpvArgs path) ∧
    (reachable 0 = true →
      startMpvClient startMpv reachable
        = { connectedAt := some 0, spawned := false, sleeps := 0 }) ∧
    (reachable 0 = false → startMpv = true →
      (∀ k, 1 ≤ k → k ≤ 15 → reachable k = true →
        (∀ j, j < k → reachable j = false) →
        startMpvClient startMpv reachable
          = { connectedAt := some k, spawned := true, sleeps := k - 1 }) ∧
      ((∀ k, k ≤ 15 → reachable k = false) →
        startMpvClient startMpv reachable
          = { connectedAt := none, spawned := true, sleeps := 15 })) ∧
    (reachable 0 = false → startMpv = false →
      startMpvClient startMpv reachable
        = { connectedAt := none, spawned := false, sleeps := 0 }) ∧
    (∀ k, (startMpvClient startMpv reachable).connectedAt = some k → k ≤ 15) := by
  refine ⟨?_, ?_, ?_, ?_, ?_⟩
  · intro path; simp [runMpvArgs]
  · intro h0; simp [startMpvClient, h0]
  · intro h0 hs
    constructor
    · intro k hk1 hk15 hk hbefore
      have := connectRetryAux_found reachable 15 1 0 k hk1 (by omega) hk
        (fun j hj1 hj2 => hbefore j hj2)
      simp [startMpvClient, h0, hs, this]
    · intro hall
      have := connectRetryAux_none reachable 15 1 0
        (fun k hk1 hk2 => hall k (by omega))
      simp [startMpvClient, h0, hs, this]
  · intro h0 hs; simp [startMpvClient, h0, hs]
  · intro k hk
    by_cases h0 : reachable 0
    · simp [startMpvClient, h0] at hk
      omega
    · by_cases hs : startMpv
      · simp [startMpvClient, h0, hs] at hk
        have := connectRetryAux_some_bound reachable 15 1 0 k hk
        omega
      · simp [startMpvClient, h0, hs] at hk

/-- C4 witness: the connect theorem evaluated at an oracle reachable
on the third retry, one never reachable, and auto-launch disabled. -/
theorem C4_connect_bounded_retry_witness :
    startMpvClient true (fun n => n == 3)
      = { connectedAt := some 3, spawned := true, sleeps := 2 } ∧
    startMpvClient true (fun _ => false)
      = { connectedAt := none, spawned := true, sleeps := 15 } ∧
    startMpvClient false (fun _ => false)
      = { connectedAt := none, spawned := false, sleeps := 0 } :=
  ⟨((C4_connect_bounded_retry true (fun n => n == 3)).2.2.1 (by decide) rfl).1 3
      (by decide) (by decide) (by decide) (by decide),
   ((C4_connect_bounded_retry true (fun _ => false)).2.2.1 rfl rfl).2 (fun k _ => rfl),
   (C4_connect_bounded_retry false (fun _ => false)).2.2.2.1 rfl rfl⟩

/-- C5 witness: the amended exit-code theorem evaluated at concrete
outcomes and a concrete quit step. -/
theorem C5_exit_codes_witness :
    (MainOutcome.cleanQuit true = MainOutcome.connectFailure ∨
      MainOutcome.cleanQuit true = MainOutcome.fetchFailure ∨
      MainOutcome.cleanQuit true = MainOutcome.cleanQuit true) ∧
    (Update env0 (seedModel cfgY "").1 (Msg.key Key.keyQuit)).2 = [MpvCmd.setPause true] :=
  ⟨C5_exit_codes.2.2.1 (MainOutcome.cleanQuit true) (by decide),
   (C5_exit_codes.2.2.2 env0 (seedModel cfgY "").1).2.2 rfl⟩

/-- A title-change message touches only the status message: the
session record, the now-playing indicator, the quitting flag, the
items and the index all survive it. -/
theorem title_step_frame (env : Env) (m : model) (t : String) :
    (Update env m (Msg.currentTitleUpdate t)).1.config = m.config ∧
    (Update env m (Msg.currentTitleUpdate t)).1.playing = m.playing ∧
    (Update env m (Msg.currentTitleUpdate t)).1.quitting = m.quitting ∧
    (Update env m (Msg.currentTitleUpdate t)).1.list.items = m.list.items ∧
    (Update env m (Msg.currentTitleUpdate t)).1.list.index = m.list.index := by
  cases h : selectedItem m.list <;> simp [Update, h, listUpdate]

/-- C7: the session record is mutated only by the enter activation and
the idle/not-idle notifications; every other single message leaves it
unchanged, and a sequence consisting only of title-change messages
leaves the session record identical and changes nothing but the
displayed status message. -/
theorem C7_session_mutation_frame :
    (∀ (env : Env) (m : model) (msg : Msg),
      (∀ b, msg ≠ Msg.changePausedStatus b) →
      msg ≠ Msg.key Key.enter →
      (Update env m msg).1.config = m.config) ∧
    (∀ (m : model) (ems : List (Env × Msg)),
      (∀ em ∈ ems, ∃ t, em.2 = Msg.currentTitleUpdate t) →
      (run m ems).config = m.config ∧
      (run m ems).playing = m.playing ∧
      (run m ems).quitting = m.quitting ∧
      (run m ems).list.items = m.list.items ∧
      (run m ems).list.index = m.list.index) := by
  constructor
  · intro env m msg hnp hne
    cases msg with
    | windowSize => simp [Update, listUpdate]
    | currentTitleUpdate t => exact (title_step_frame env m t).1
    | changePausedStatus b => exact absurd rfl (hnp b)
    | key k =>
      cases k with
      | keyQuit => simp [Update]
      | enter => exact absurd rfl hne
      | up => simp [Update, listUpdate]
      | down => simp [Update, listUpdate]
      | other => simp [Update, listUpdate]
  · intro m ems
    induction ems generalizing m with
    | nil => intro _; exact ⟨rfl, rfl, rfl, rfl, rfl⟩
    | cons em ems ih =>
      intro h
      obtain ⟨t, ht⟩ := h em (List.mem_cons_self em ems)
      have hrun : run m (em :: ems) = run (step m em) ems := by
        simp [run]
      have hframe := title_step_frame em.1 m t
      have hstep : step m em = (Update em.1 m (Msg.currentTitleUpdate t)).1 := by
        simp [step, ht]
      have hrest := ih (step m em) (fun x hx => h x (List.mem_cons_of_mem em hx))
      rw [hrun, hstep]
      rw [hstep] at hrest
      exact ⟨hrest.1.trans hframe.1, hrest.2.1.trans hframe.2.1,
             hrest.2.2.1.trans hframe.2.2.1, hrest.2.2.2.1.trans hframe.2.2.2.1,
             hrest.2.2.2.2.trans hframe.2.2.2.2⟩

/-- C7 witness: the frame theorem evaluated at a cursor key and at a
concrete two-title sequence. -/
theorem C7_session_mutation_frame_witness :
    (Update env0 (seedModel cfgY "").1 (Msg.key Key.down)).1.config
      = (seedModel cfgY "").1.config ∧
    (run (seedModel cfgY "").1
        [(env0, Msg.currentTitleUpdate "a"), (env0, Msg.currentTitleUpdate "b")]).config
      = (seedModel cfgY "").1.config :=
  ⟨C7_session_mutation_frame.1 env0 (seedModel cfgY "").1 (Msg.key Key.down)
      (fun b => by simp) (by simp),
   (C7_session_mutation_frame.2 (seedModel cfgY "").1
      [(env0, Msg.currentTitleUpdate "a"), (env0, Msg.currentTitleUpdate "b")]
      (by
        intro em hem
        rcases List.mem_cons.mp hem with rfl | hem2
        · exact ⟨"a", rfl⟩
        · rcases List.mem_cons.mp hem2 with rfl | hem3
          · exact ⟨"b", rfl⟩
          · exact absurd hem3 (List.not_mem_nil em))).1⟩

/-- Decoding a marshalled string list recovers it. -/
theorem unmarshalStrElems_marshal (xs : List String) :
    unmarshalStrElems (xs.map JValue.jstr) = some xs := by
  induction xs with
  | nil => rfl
  | cons x xs ih => simp [unmarshalStrElems, unmarshalStrElem, ih]

/-- Decoding a marshalled bool pointer recovers it. -/
theorem unmarshalOptBool_marshal (o : Option Bool) :
    unmarshalOptBool (some (marshalOptBool o)) = some o := by
  cases o <;> rfl

/-- Decoding a marshalled channel recovers it. -/
theorem unmarshalChannel_marshal (c : channel) :
    unmarshalChannel (marshalChannel c) = some c := by
  cases c with
  | mk t hi fa sl i d g p =>
    simp [marshalChannel, unmarshalChannel, lookupField, List.find?, marshalStrList,
          unmarshalStrList, unmarshalString, unmarshalOptBool_marshal,
          unmarshalStrElems_marshal]

/-- Decoding a marshalled channel list recovers it. -/
theorem unmarshalChannelList_marshal (cs : List channel) :
    unmarshalChannelList (cs.map marshalChannel) = some cs := by
  induction cs with
  | nil => rfl
  | cons c cs ih => simp [unmarshalChannelList, unmarshalChannel_marshal, ih]

/-- Decoding a marshalled somaConfig record recovers it. -/
theorem unmarshalConfig_marshal (c : somaConfig) :
    unmarshalConfig (marshalConfig c) = some c := by
  cases c with
  | mk cp ip cs ts =>
    cases cs with
    | mk l =>
      simp [marshalConfig, unmarshalConfig, lookupField, List.find?, unmarshalString,
            unmarshalBool, unmarshalInt, unmarshalChannels, unmarshalChannelList_marshal]

/-- C8: with no I/O or encoding error, loading the session record back
after saving it yields the record that was saved. -/
theorem C8_save_load_roundtrip (c : somaConfig) :
    loadConfig (saveConfig c) = (c, false) := by
  simp [loadConfig, saveConfig, unmarshalConfig_marshal]

/-- C9: every read or parse failure of the config load yields the
zero-value session (nothing selected, not paused, no cached channels,
zero timestamp), and startup proceeds exactly as it would from a
pristine zero session rather than aborting: with any successful fetch
the initialisation still completes. -/
theorem C9_load_fails_softly (fs : FileState)
    (herr : (loadConfig fs).2 = true) :
    (loadConfig fs).1 = zeroConfig ∧
    (∀ now fetched lp, initialModel fs now fetched lp
      = initialModel (FileState.parsed (marshalConfig zeroConfig)) now fetched lp) ∧
    (∀ now cs lp, ∃ m cmds, initialModel fs now (some cs) lp = InitResult.ok m cmds) := by
  have h1 : (loadConfig fs).1 = zeroConfig := by
    cases fs with
    | noConfigDir => rfl
    | missing => rfl
    | unparseable => rfl
    | parsed j =>
      cases hj : unmarshalConfig j with
      | none => simp [loadConfig, hj]
      | some c => simp [loadConfig, hj] at herr
  refine ⟨h1, ?_, ?_⟩
  · intro now fetched lp
    have h2 : (loadConfig (FileState.parsed (marshalConfig zeroConfig))).1 = zeroConfig := by
      simp [loadConfig, unmarshalConfig_marshal]
    simp only [initialModel, h1, h2]
  · intro now cs lp
    refine ⟨(seedModel { zeroConfig with channels := cs, lastChannelsListUpdate := now } lp).1,
            (seedModel { zeroConfig with channels := cs, lastChannelsListUpdate := now } lp).2, ?_⟩
    simp only [initialModel, h1]
    rfl

/-- C9 witness: the soft-failure theorem evaluated at a missing config
file with a successful sample fetch. -/
theorem C9_load_fails_softly_witness :
    (loadConfig FileState.missing).1 = zeroConfig ∧
    initialModel FileState.missing 0 (some { channels := [chanY] }) ""
      = initialModel (FileState.parsed (marshalConfig zeroConfig)) 0
          (some { channels := [chanY] }) "" :=
  ⟨(C9_load_fails_softly FileState.missing rfl).1,
   (C9_load_fails_softly FileState.missing rfl).2.1 0 (some { channels := [chanY] }) ""⟩

/-- A record with its mark field set to its current value is itself. -/
theorem mark_id (x : ListItem) (b : Bool) (h : x.isPlaying = b) :
    { x with isPlaying := b } = x := by
  cases x; cases h; rfl

/-- Remarking the items relative to the target id is the identity when
the marks already single out that id. -/
theorem map_marks_id (items : List ListItem) (tid : String)
    (h : ∀ x ∈ items, x.isPlaying = decide (x.chan.id = tid)) :
    items.map (fun x => if x.chan.id = tid then { x with isPlaying := true }
      else { x with isPlaying := false }) = items := by
  induction items with
  | nil => rfl
  | cons x xs ih =>
    have hx := h x (List.mem_cons_self x xs)
    have hxs := ih (fun y hy => h y (List.mem_cons_of_mem x hy))
    simp only [List.map_cons, hxs]
    by_cases hc : x.chan.id = tid
    · have hxe : x.isPlaying = true := by rw [hx]; simp [hc]
      rw [if_pos hc, mark_id x true hxe]
    · have hxe : x.isPlaying = false := by rw [hx]; simp [hc]
      rw [if_neg hc, mark_id x false hxe]

/-- The inner list update ignores the enter key. -/
theorem listUpdate_enter (l : ListModel) : listUpdate l (Msg.key Key.enter) = l := rfl

/-- Two consecutive activations of the already playing, selected and
unpaused channel return the model to its previous state except for a
cleared status message. -/
theorem enter_pair_eq (m : model) (it : ListItem)
    (hsel : selectedItem m.list = some it)
    (hid : it.chan.id ≠ "")
    (hpl : m.playing = it.chan.id)
    (hcp : m.config.currentlyPlaying = it.chan.id)
    (hip : m.config.isPaused = false)
    (hmarks : ∀ x ∈ m.list.items, x.isPlaying = decide (x.chan.id = it.chan.id))
    (e1 e2 : Env) :
    step (step m (e1, Msg.key Key.enter)) (e2, Msg.key Key.enter)
      = { m with list := { m.list with statusMessage := "" } } := by
  obtain ⟨pl, qt, cfg, lst⟩ := m
  obtain ⟨cp, ip, chs, ts⟩ := cfg
  obtain ⟨items, idx, status⟩ := lst
  simp only [selectedItem] at hsel
  simp only at hpl hcp hip hmarks
  subst hpl
  subst hcp
  subst hip
  have h1 : step (model.mk it.chan.id qt (somaConfig.mk it.chan.id false chs ts)
        (ListModel.mk items idx status)) (e1, Msg.key Key.enter)
      = model.mk "" qt (somaConfig.mk it.chan.id true chs ts)
          (ListModel.mk (items.map (fun x => { x with isPlaying := false })) idx "") := by
    simp [step, Update, selectedItem, hsel, setIsPlaying, listUpdate]
  rw [h1]
  have hsel1 : selectedItem (ListModel.mk
        (items.map (fun x => { x with isPlaying := false })) idx "")
      = some { it with isPlaying := false } := by
    simp only [selectedItem, List.getElem?_map]
    rw [hsel]
    rfl
  simp only [step, Update, hsel1]
  rw [if_pos (by simpa using (Ne.symm hid))]
  simp only [listUpdate_enter, setIsPlaying, List.map_map]
  have hitems : items.map ((fun x => if x.chan.id = it.chan.id
        then { x with isPlaying := true } else { x with isPlaying := false }) ∘
        (fun x => { x with isPlaying := false })) = items := by
    have := map_marks_id items it.chan.id hmarks
    simpa [Function.comp] using this
  simp [hitems]

/-- The first activation of the already-playing channel pauses: the
session is marked paused and the now-playing indicator cleared. -/
theorem enter_toggle_first (m : model) (it : ListItem)
    (hsel : selectedItem m.list = some it)
    (hpl : m.playing = it.chan.id) (e : Env) :
    (step m (e, Msg.key Key.enter)).config.isPaused = true ∧
    (step m (e, Msg.key Key.enter)).playing = "" := by
  constructor <;> simp [step, Update, hsel, hpl, setIsPlaying, listUpdate]

/-- Any number of activation pairs of the playing channel returns the
model unchanged up to the status message. -/
theorem run_enterPairs_id : ∀ (es : List (Env × Env)) (m : model) (it : ListItem),
    selectedItem m.list = some it → it.chan.id ≠ "" → m.playing = it.chan.id →
    m.config.currentlyPlaying = it.chan.id → m.config.isPaused = false →
    (∀ x ∈ m.list.items, x.isPlaying = decide (x.chan.id = it.chan.id)) →
    run m (enterPairs es) = m ∨
    run m (enterPairs es) = { m with list := { m.list with statusMessage := "" } } := by
  intro es
  induction es with
  | nil => intro m it _ _ _ _ _ _; exact Or.inl rfl
  | cons p ps ih =>
    intro m it hsel hid hpl hcp hip hmarks
    have hpair := enter_pair_eq m it hsel hid hpl hcp hip hmarks p.1 p.2
    have hrun : run m (enterPairs (p :: ps))
        = run (step (step m (p.1, Msg.key Key.enter)) (p.2, Msg.key Key.enter))
            (enterPairs ps) := by
      simp [enterPairs, run]
    rw [hrun, hpair]
    have hrec := ih { m with list := { m.list with statusMessage := "" } } it
      (by simpa [selectedItem] using hsel) hid hpl hcp hip (by simpa using hmarks)
    rcases hrec with h | h
    · exact Or.inr h
    · exact Or.inr h

/-- C6: activating the channel that is currently playing toggles it to
paused, activating it again returns it to playing, and any sequence of
consecutive activation pairs of that channel returns the session and
playback state (session record, now-playing id, quitting flag, item
marks and selection) to what it was before the sequence. -/
theorem C6_activate_toggle_idempotent (m : model) (it : ListItem)
    (hsel : selectedItem m.list = some it)
    (hid : it.chan.id ≠ "")
    (hpl : m.playing = it.chan.id)
    (hcp : m.config.currentlyPlaying = it.chan.id)
    (hip : m.config.isPaused = false)
    (hmarks : ∀ x ∈ m.list.items, x.isPlaying = decide (x.chan.id = it.chan.id))
    (e1 e2 : Env) (es : List (Env × Env)) :
    (step m (e1, Msg.key Key.enter)).config.isPaused = true ∧
    (step m (e1, Msg.key Key.enter)).playing = "" ∧
    (step (step m (e1, Msg.key Key.enter)) (e2, Msg.key Key.enter)).playing = it.chan.id ∧
    (step (step m (e1, Msg.key Key.enter)) (e2, Msg.key Key.enter)).config.isPaused = false ∧
    viewState (run m (enterPairs es)) = viewState m := by
  have hpair := enter_pair_eq m it hsel hid hpl hcp hip hmarks e1 e2
  refine ⟨(enter_toggle_first m it hsel hpl e1).1,
          (enter_toggle_first m it hsel hpl e1).2, ?_, ?_, ?_⟩
  · rw [hpair]; exact hpl
  · rw [hpair]; exact hip
  · rcases run_enterPairs_id es m it hsel hid hpl hcp hip hmarks with h | h <;>
      simp [h, viewState]

/-- C6 witness: the toggle and idempotence theorem evaluated on the
sample seeded model with two activation pairs. -/
theorem C6_activate_toggle_idempotent_witness :
    (step (seedModel cfgY "").1 (env0, Msg.key Key.enter)).config.isPaused = true ∧
    viewState (run (seedModel cfgY "").1 (enterPairs [(env0, env0), (env0, env0)]))
      = viewState (seedModel cfgY "").1 :=
  ⟨(C6_activate_toggle_idempotent (seedModel cfgY "").1 { chan := chanY, isPlaying := true }
      rfl (by decide) rfl rfl rfl (by decide) env0 env0 []).1,
   (C6_activate_toggle_idempotent (seedModel cfgY "").1 { chan := chanY, isPlaying := true }
      rfl (by decide) rfl rfl rfl (by decide) env0 env0
      [(env0, env0), (env0, env0)]).2.2.2.2⟩

/-- setIsPlaying does not change the number of items. -/
theorem setIsPlaying_length (l : ListModel) (id : String) (b : Bool) :
    (setIsPlaying l id b).items.length = l.items.length := by
  simp [setIsPlaying]

/-- setIsPlaying keeps all channel ids non-empty. -/
theorem setIsPlaying_ids (l : ListModel) (id : String) (b : Bool)
    (h : ∀ x ∈ l.items, x.chan.id ≠ "") :
    ∀ x ∈ (setIsPlaying l id b).items, x.chan.id ≠ "" := by
  intro x hx
  simp only [setIsPlaying, List.mem_map] at hx
  obtain ⟨a, ha, hax⟩ := hx
  subst hax
  by_cases hc : a.chan.id = id
  · rw [if_pos hc]; exact h a ha
  · rw [if_neg hc]; exact h a ha

/-- Invariant preservation by one control-loop step. -/
theorem Inv_step (m : model) (em : Env × Msg) (h : Inv m) : Inv (step m em) := by
  obtain ⟨h1, h2, h3, h4⟩ := h
  obtain ⟨env, msg⟩ := em
  cases msg with
  | windowSize => exact ⟨h1, h2, h3, h4⟩
  | currentTitleUpdate t =>
    cases hs : selectedItem m.list with
    | none => simp only [step, Update, hs]; exact ⟨h1, h2, h3, h4⟩
    | some it => simp only [step, Update, hs, listUpdate]; exact ⟨h1, h2, h3, h4⟩
  | changePausedStatus b =>
    cases b with
    | true =>
      refine ⟨?_, ?_, ?_, ?_⟩
      · simp [step, Update, listUpdate, setIsPlaying]
        intro habs; exact h1 (by simpa using habs)
      · simpa [step, Update, listUpdate, setIsPlaying_length] using h2
      · simp only [step, Update, listUpdate]
        exact setIsPlaying_ids m.list m.playing false h3
      · simp [step, Update, listUpdate]
    | false =>
      refine ⟨?_, ?_, ?_, ?_⟩
      · simp [step, Update, listUpdate, setIsPlaying]
        intro habs; exact h1 (by simpa using habs)
      · simpa [step, Update, listUpdate, setIsPlaying_length] using h2
      · simp only [step, Update, listUpdate]
        exact setIsPlaying_ids m.list m.config.currentlyPlaying true h3
      · simp [step, Update, listUpdate]
  | key k =>
    cases k with
    | keyQuit =>
      refine ⟨h1, h2, h3, ?_⟩
      simp [step, Update]
    | up =>
      refine ⟨h1, ?_, h3, h4⟩
      simp only [step, Update, listUpdate]
      omega
    | down =>
      refine ⟨h1, ?_, h3, h4⟩
      simp only [step, Update, listUpdate]
      split <;> omega
    | other => exact ⟨h1, h2, h3, h4⟩
    | enter =>
      have hsel : selectedItem m.list = some m.list.items[m.list.index] :=
        List.getElem?_eq_getElem h2
      have hmem : m.list.items[m.list.index] ∈ m.list.items := List.getElem_mem h2
      set it := m.list.items[m.list.index] with hit
      by_cases hc : m.playing ≠ it.chan.id
      · refine ⟨?_, ?_, ?_, ?_⟩
        · simp [step, Update, hsel, hc, listUpdate, setIsPlaying]
          intro habs; exact h1 (by simpa using habs)
        · simpa [step, Update, hsel, hc, listUpdate, setIsPlaying_length] using h2
        · simp only [step, Update, hsel, if_pos hc, listUpdate]
          exact setIsPlaying_ids m.list it.chan.id true h3
        · simp [step, Update, hsel, hc, listUpdate, h3 it hmem]
      · refine ⟨?_, ?_, ?_, ?_⟩
        · simp [step, Update, hsel, hc, listUpdate, setIsPlaying]
          intro habs; exact h1 (by simpa using habs)
        · simpa [step, Update, hsel, hc, listUpdate, setIsPlaying_length] using h2
        · simp only [step, Update, hsel, if_neg hc, listUpdate]
          exact setIsPlaying_ids m.list m.playing false h3
        · simp [step, Update, hsel, hc, listUpdate]

/-- Invariant preservation by any message sequence. -/
theorem Inv_run (m : model) (ems : List (Env × Msg)) (h : Inv m) : Inv (run m ems) := by
  induction ems generalizing m with
  | nil => exact h
  | cons em ems ih =>
    have hr : run m (em :: ems) = run (step m em) ems := by simp [run]
    rw [hr]
    exact ih (step m em) (Inv_step m em h)

/-- Items built from channels keep the channel ids. -/
theorem channelsToItems_ids (cs : List channel) (h : ∀ c ∈ cs, c.id ≠ "") :
    ∀ x ∈ channelsToItems cs, x.chan.id ≠ "" := by
  intro x hx
  simp only [channelsToItems, List.mem_map] at hx
  obtain ⟨c, hc, hcx⟩ := hx
  subst hcx
  exact h c hc

/-- Shape of the seed when there is no live path and no persisted
selection. -/
theorem seedModel_idle (cfg : somaConfig) (hcp : cfg.currentlyPlaying = "") :
    seedModel cfg ""
      = ({ playing := "", quitting := false, config := cfg,
           list := { items := channelsToItems cfg.channels.channels, index := 0,
                     statusMessage := "" } }, []) := by
  simp [seedModel, reconcile, hcp]

/-- Shape of the seed when there is no live path and the persisted
selection is found, not paused. -/
theorem seedModel_resume (cfg : somaConfig) (i : Nat) (c : channel)
    (hcp : ¬ cfg.currentlyPlaying = "")
    (hfind : findWithIdx (fun c => c.id == cfg.currentlyPlaying) cfg.channels.channels
      = some (i, c))
    (hip : cfg.isPaused = false) :
    seedModel cfg ""
      = ({ playing := c.id, quitting := false, config := cfg,
           list := setIsPlaying
             { items := channelsToItems cfg.channels.channels, index := i,
               statusMessage := "" } c.id true }, [MpvCmd.loadfile c.highestURL]) := by
  simp [seedModel, reconcile, hcp, hfind, hip]

/-- Shape of the seed when there is no live path and the persisted
selection is found, paused. -/
theorem seedModel_restore_paused (cfg : somaConfig) (i : Nat) (c : channel)
    (hcp : ¬ cfg.currentlyPlaying = "")
    (hfind : findWithIdx (fun c => c.id == cfg.currentlyPlaying) cfg.channels.channels
      = some (i, c))
    (hip : cfg.isPaused = true) :
    seedModel cfg ""
      = ({ playing := "", quitting := false, config := cfg,
           list := { items := channelsToItems cfg.channels.channels, index := i,
                     statusMessage := "" } }, []) := by
  simp [seedModel, reconcile, hcp, hfind, hip]

/-- The seed produced by reconciliation with no live player path from
a session consistent with a non-empty channel list with non-empty ids
satisfies the control-loop invariant. -/
theorem Inv_seed (cfg : somaConfig)
    (h1 : cfg.channels.channels ≠ [])
    (h2 : ∀ c ∈ cfg.channels.channels, c.id ≠ "")
    (h3 : cfg.currentlyPlaying = "" ∨
      cfg.currentlyPlaying ∈ cfg.channels.channels.map (fun c => c.id)) :
    Inv (seedModel cfg "").1 := by
  have hlen : 0 < cfg.channels.channels.length := List.length_pos.mpr h1
  by_cases hcp : cfg.currentlyPlaying = ""
  · rw [seedModel_idle cfg hcp]
    refine ⟨?_, ?_, channelsToItems_ids cfg.channels.channels h2, ?_⟩
    · simp [channelsToItems, h1]
    · simp [channelsToItems, hlen]
    · simp [hcp]
  · obtain ⟨i, c, hfind⟩ : ∃ i c,
        findWithIdx (fun c => c.id == cfg.currentlyPlaying) cfg.channels.channels
          = some (i, c) := by
      rcases h3 with h | h
      · exact absurd h hcp
      · obtain ⟨c, hc, hcid⟩ := List.mem_map.mp h
        exact findWithIdx_isSome ⟨c, hc, by simp [hcid]⟩
    obtain ⟨hilt, hcmem, hp⟩ := findWithIdx_some hfind
    have hcid : c.id = cfg.currentlyPlaying := by simpa using hp
    cases hip : cfg.isPaused with
    | true =>
      rw [seedModel_restore_paused cfg i c hcp hfind hip]
      refine ⟨?_, ?_, channelsToItems_ids cfg.channels.channels h2, ?_⟩
      · simp [channelsToItems, h1]
      · simp [channelsToItems, hilt]
      · simp [hip]
    | false =>
      rw [seedModel_resume cfg i c hcp hfind hip]
      refine ⟨?_, ?_,
        setIsPlaying_ids _ c.id true (channelsToItems_ids cfg.channels.channels h2), ?_⟩
      · simp [setIsPlaying, channelsToItems, h1]
      · simpa [setIsPlaying, channelsToItems] using hilt
      · intro _
        simp only [setIsPlaying]
        constructor
        · intro _
          exact ⟨hip, hcp⟩
        · intro _
          exact h2 c hcmem

/-- C2 amended: for every state reachable, before quitting, from a
seed reconciled with no live player path and a persisted session whose
selected id is empty or one of the ids of the non-empty channel list
with non-empty ids, the UI now-playing channel id is non-empty exactly
when the derived machine state is Playing(_); the original claim also
covered the Quitting state and arbitrary seeds, but a quit from a
playing state keeps the indicator while quitting, refuting it there. -/
theorem C2_nowplaying_iff_playing (cfg : somaConfig) (l : List (Env × Msg))
    (h1 : cfg.channels.channels ≠ [])
    (h2 : ∀ c ∈ cfg.channels.channels, c.id ≠ "")
    (h3 : cfg.currentlyPlaying = "" ∨
      cfg.currentlyPlaying ∈ cfg.channels.channels.map (fun c => c.id))
    (hq : (run (seedModel cfg "").1 l).quitting = false) :
    ((run (seedModel cfg "").1 l).playing ≠ "" ↔
      ∃ id, stateOf (run (seedModel cfg "").1 l) = MachineState.playingSt id) := by
  obtain ⟨_, _, _, h4⟩ := Inv_run _ l (Inv_seed cfg h1 h2 h3)
  rw [h4 hq]
  set mf := run (seedModel cfg "").1 l with hmf
  constructor
  · rintro ⟨hip, hcp⟩
    exact ⟨mf.config.currentlyPlaying, by simp [stateOf, hq, hcp, hip]⟩
  · rintro ⟨id, hst⟩
    by_cases hcp : mf.config.currentlyPlaying = ""
    · simp [stateOf, hq, hcp] at hst
    · by_cases hip : mf.config.isPaused
      · simp [stateOf, hq, hcp, hip] at hst
      · exact ⟨by simpa using hip, hcp⟩

/-- C2 counterexample: the claim as stated fails on a reachable
state: from a pristine seed over one channel, activating the channel
and then pressing quit reaches the Quitting state with the now-playing
channel id still non-empty. -/
theorem C2_counterexample :
    stateOf (run (seedModel { cfgY with currentlyPlaying := "" } "").1
        [(env0, Msg.key Key.enter), (env0, Msg.key Key.keyQuit)])
      = MachineState.quittingSt ∧
    (run (seedModel { cfgY with currentlyPlaying := "" } "").1
        [(env0, Msg.key Key.enter), (env0, Msg.key Key.keyQuit)]).playing ≠ "" := by
  refine ⟨rfl, by decide⟩

/-- C2 witness: the amended theorem evaluated at the sample session
and the empty message sequence. -/
theorem C2_nowplaying_iff_playing_witness :
    (run (seedModel cfgY "").1 []).playing ≠ "" ↔
      ∃ id, stateOf (run (seedModel cfgY "").1 []) = MachineState.playingSt id :=
  C2_nowplaying_iff_playing cfgY [] (by decide) (by decide) (by decide) (by decide)

end Soma
